import Mathlib

/-!
Template-gen: a shallow embedding of `app/main.go`.

The program reads one file, splits it at the first two `---` markers into a
YAML metadata block and a markdown body, renders the body, substitutes the
record into a fixed page skeleton and writes one output file.

Conventions of the embedding:

* Go byte slices and Go strings that carry file content are `Bytes`
  (lists of `UInt8`); paths and messages are Lean strings.
* A Go function that returns `(x, error)` or may panic returns a `Result`:
  `ok x`, `error e` (the `return nil, err` paths) or `panic msg`.
* The external packages (`gopkg.in/yaml.v2`, `github.com/gomarkdown/markdown`)
  are parameters, bundled in `Collaborators`; every call to one of them is
  recorded, in order, in the `calls` field of a `Run`.
* Slice expressions keep Go's bounds check (`slice`, `sliceFrom`), so an
  out-of-range index is a `panic` of the model, not a silent truncation.
-/

namespace TemplateGen

/-! ## Data model -/

/-- Go byte slices (and the bytes of Go strings). -/
abbrev Bytes := List UInt8

/-- UTF-8 bytes of a string constant of the source. -/
def utf8 (s : String) : Bytes := s.data.flatMap String.utf8EncodeChar

/-- A Go `error` value, identified by its message. -/
structure GoError where
  msg : String
deriving DecidableEq, Repr

/-- Outcome of a Go call: a value with a nil error, a non-nil error with no
value, or a run-time panic. -/
inductive Result (α : Type) where
  | ok (val : α)
  | error (err : GoError)
  | panic (msg : String)
deriving DecidableEq, Repr

/-- `type Article struct { Title string; Content template.HTML; Author string }`. -/
structure Article where
  Title : Bytes
  Content : Bytes
  Author : Bytes
deriving DecidableEq, Repr

/-- The zero value of `Article` (`var data Article`). -/
def zeroArticle : Article := ⟨[], [], []⟩

/-- `type Params struct { Input string; Output string }`. -/
structure Params where
  Input : String
  Output : String
deriving DecidableEq, Repr

/-- The external packages `ParseArticle` calls.
`yamlUnmarshal buf data` is `yaml.Unmarshal(buf, &data)`: the record after the
call and the error it returned (`none` for nil).
`markdownToHTML body` is `markdown.ToHTML(body, nil, nil)`. -/
structure Collaborators where
  yamlUnmarshal : Bytes → Article → Article × Option GoError
  markdownToHTML : Bytes → Bytes

/-- One call to an external package, with the bytes it was handed. -/
inductive Call where
  | yamlUnmarshal (buf : Bytes)
  | markdownToHTML (body : Bytes)
  | logPrintln (content : Bytes)
deriving DecidableEq, Repr

/-- A finished call of the model: the external calls it made, in order, and
its outcome. -/
structure Run (α : Type) where
  calls : List Call
  result : Result α

/-! ## Byte-slice primitives of the Go runtime and of package `bytes` -/

/-- The separator literal `[]byte("---")`. -/
def separator : Bytes := [45, 45, 45]

/-- Scan for `bytes.Index`: `i` is the index of the head of the remaining input. -/
def indexFrom (sep : Bytes) : Bytes → Int → Int
  | [], i => if sep = [] then i else -1
  | b :: s, i => if sep.isPrefixOf (b :: s) then i else indexFrom sep s (i + 1)

/-- Go `bytes.Index(s, sep)`: the index of the first instance of `sep` in `s`,
or `-1` if `sep` is not present in `s`. -/
def bytesIndex (s sep : Bytes) : Int := indexFrom sep s 0

/-- Go slice expression `s[lo:hi]`, with the run-time bounds check
`0 <= lo <= hi <= len(s)`; `none` is the out-of-range panic.  (Go checks `hi`
against `cap(s)`, which is at least `len(s)`: the model panics whenever Go
does.) -/
def slice (s : Bytes) (lo hi : Int) : Option Bytes :=
  if 0 ≤ lo ∧ lo ≤ hi ∧ hi ≤ (s.length : Int) then
    some ((s.drop lo.toNat).take (hi - lo).toNat)
  else none

/-- Go slice expression `s[lo:]`, with the bounds check `0 <= lo <= len(s)`. -/
def sliceFrom (s : Bytes) (lo : Int) : Option Bytes :=
  slice s lo (s.length : Int)

/-! ## `ParseArticleData` and `ParseArticle` -/

/-- The error of `errors.New("yaml separator not found")`. -/
def errSeparator : GoError := ⟨"yaml separator not found"⟩

/-- The message of the run-time panic of an out-of-range slice expression. -/
def panicBounds : String := "runtime error: slice bounds out of range"

/-- `func ParseArticleData(buf []byte) (*Article, error)`: unmarshal `buf`
into a zero-valued `Article`; `nil, err` when the decoder reports an error. -/
def ParseArticleData (c : Collaborators) (buf : Bytes) : Run Article :=
  let data : Article := zeroArticle
  let r := c.yamlUnmarshal buf data
  match r.2 with
  | some err => ⟨[Call.yamlUnmarshal buf], Result.error err⟩
  | none => ⟨[Call.yamlUnmarshal buf], Result.ok r.1⟩

/-- `func ParseArticle(buf []byte) (a *Article, err error)`. -/
def ParseArticle (c : Collaborators) (buf : Bytes) : Run Article :=
  let yamlStart := bytesIndex buf separator
  if yamlStart = -1 then ⟨[], Result.error errSeparator⟩ else
  match sliceFrom buf (yamlStart + 3) with
  | none => ⟨[], Result.panic panicBounds⟩
  | some rest =>
    let yamlEnd := bytesIndex rest separator
    if yamlEnd = -1 then ⟨[], Result.error errSeparator⟩ else
    match slice buf (yamlStart + 3) (yamlStart + 3 + yamlEnd) with
    | none => ⟨[], Result.panic panicBounds⟩
    | some block =>
      let r := ParseArticleData c block
      match r.result with
      | Result.error err => ⟨r.calls, Result.error err⟩
      | Result.panic m => ⟨r.calls, Result.panic m⟩
      | Result.ok a =>
        match sliceFrom buf (yamlStart + 6 + yamlEnd) with
        | none => ⟨r.calls, Result.panic panicBounds⟩
        | some body =>
          let content := c.markdownToHTML body
          ⟨r.calls ++ [Call.markdownToHTML body, Call.logPrintln content],
            Result.ok { a with Content := content }⟩


/-! ## The page skeleton and the template renderer -/

/-- The lines of the raw string constant `articleTempl` (lines 40 to 143 of
`app/main.go`): the constant opens with a line break, and the last line has
none after it. -/
def articleTemplLines : List String := [
  "",
  "<!DOCTYPE html>",
  "<html lang=\"en\">",
  "<head>",
  "    <meta charset=\"UTF-8\">",
  "    <meta http-equiv=\"X-UA-Compatible\" content=\"IE=edge\">",
  "    <meta name=\"viewport\" content=\"width=device-width, initial-scale=1.0\">",
  "    <style>",
  "\t.max-width-md \x7b",
  "\t\tmax-width: 768px;",
  "\t\x7d",
  "\t.article img \x7b",
  "\t\tdisplay: block;",
  "\t\tmargin: auto;",
  "\t\theight: 100%;",
  "\t\twidth: 100%;",
  "\t\tobject-fit: cover;",
  "\t\x7d",
  "\t.article blockquote \x7b",
  "\t\tpadding: 0 1em;",
  "\t\tcolor: gray;",
  "\t\tborder-left: .25em solid gray;",
  "\t\x7d",
  "\tcode.has-jax \x7b",
  "\t\tfont: inherit;",
  "\t\tfont-size: 100%;",
  "\t\tbackground: inherit;",
  "\t\tborder: inherit;",
  "\t\tcolor: #515151;",
  "\t\x7d",
  "\t</style>",
  "\t<link href=\"https://cdn.jsdelivr.net/npm/bootstrap@5.1.3/dist/css/bootstrap.min.css\" rel=\"stylesheet\"",
  "\t\tintegrity=\"sha384-1BmE4kWBq78iYhFldvKuhfTAU6auU8tT94WrHftjDbrCEXSU1oBoqyl2QvZ6jIW3\" crossorigin=\"anonymous\">",
  "\t<link rel=\"stylesheet\" href=\"https://cdn.jsdelivr.net/npm/bootstrap-icons@1.8.1/font/bootstrap-icons.css\">",
  "\t<script src=\"https://polyfill.io/v3/polyfill.min.js?features=es6\"></script>",
  "\t<script id=\"MathJax-script\" async src=\"https://cdn.jsdelivr.net/npm/mathjax@3/es5/tex-mml-chtml.js\"></script>",
  "\t<script id=\"MathJax-script\" type=\"text/javascript\">",
  "\tMathJax = \x7b",
  "\t\ttex: \x7b",
  "\t\t\tinlineMath: [",
  "\t\t\t\t[\"$\", \"$\"],",
  "\t\t\t\t[\"\\\\(\", \"\\\\)\"],",
  "\t\t\t],",
  "\t\t\x7d,",
  "\t\tsvg: \x7b",
  "\t\t\tfontCache: \"global\",",
  "\t\t\x7d,",
  "\t\x7d;",
  "\t</script>",
  "\t<script type=\"text/javascript\" id=\"MathJax-script\" async",
  "\t\tsrc=\"https://cdn.jsdelivr.net/npm/mathjax@3/es5/tex-svg.js\"></script>",
  "</head>",
  "<header",
  "\tclass=\"container d-flex flex-wrap align-items-center justify-content-center justify-content-md-between py-3 mb-4 border-bottom\">",
  "\t<a href=\"/\" class=\"d-flex align-items-center col-md-3 mb-2 mb-md-0 text-dark text-decoration-none\">",
  "\t\t<svg xmlns=\"http://www.w3.org/2000/svg\" width=\"32\" height=\"32\" fill=\"currentColor\"",
  "\t\t\tclass=\"bi bi-bootstrap-fill\" viewBox=\"0 0 16 16\">",
  "\t\t\t<path",
  "\t\t\t\td=\"M6.375 7.125V4.658h1.78c.973 0 1.542.457 1.542 1.237 0 .802-.604 1.23-1.764 1.23H6.375zm0 3.762h1.898c1.184 0 1.81-.48 1.81-1.377 0-.885-.65-1.348-1.886-1.348H6.375v2.725z\" />",
  "\t\t\t<path",
  "\t\t\t\td=\"M4.002 0a4 4 0 0 0-4 4v8a4 4 0 0 0 4 4h8a4 4 0 0 0 4-4V4a4 4 0 0 0-4-4h-8zm1.06 12V3.545h3.399c1.587 0 2.543.809 2.543 2.11 0 .884-.65 1.675-1.483 1.816v.1c1.143.117 1.904.931 1.904 2.033 0 1.488-1.084 2.396-2.888 2.396H5.062z\" />",
  "\t\t</svg>",
  "\t</a>",
  "",
  "\t<ul class=\"nav col-12 col-md-auto mb-2 justify-content-center mb-md-0\">",
  "\t\t<li><a href=\"/courses\" class=\"nav-link px-2 link-dark\">",
  "\t\t\t\t<i class=\"bi bi-book\"></i> Курси</a></li>",
  "\t\t<li><a href=\"/guides\" class=\"nav-link px-2 link-dark\">",
  "\t\t\t\t<i class=\"bi bi-question-circle\"></i> Як допомогти</a></li>",
  "\t\t<li><a href=\"/about\" class=\"nav-link px-2 link-dark\">",
  "\t\t\t\t<i class=\"bi bi-people-fill\"></i>",
  "\t\t\t\tПро нас</a></li>",
  "\t</ul>",
  "</header>",
  "<div class=\"article container-fluid max-width-md\">",
  "<h1 class=\"title\">\x7b\x7b .Title \x7d\x7d</h1>",
  "<div class=\"author\">",
  "\t<a href=\"#\" class=\"btn\">",
  "\t\t<i class=\"bi bi-person-circle\"></i>",
  "\t\t\x7b\x7b .Author \x7d\x7d",
  "\t</a>",
  "</div>",
  "<hr />",
  "<p class=\"text-justify\">\x7b\x7b .Content \x7d\x7d</p>",
  "</div>",
  "<footer class=\"container d-flex justify-content-between align-items-center py-3 my-4 border-top\">",
  "    <div class=\"col-md-4 d-flex align-items-center\">",
  "        <a href=\"/\" class=\"mb-3 me-2 mb-md-0 text-muted text-decoration-none lh-1\">",
  "            <svg class=\"bi\" width=\"30\" height=\"24\">",
  "                <use xlink:href=\"#bootstrap\"></use>",
  "            </svg>",
  "        </a>",
  "        <span class=\"text-muted\">© 2021 Company, Inc</span>",
  "    </div>",
  "",
  "    <ul class=\"nav col-md-4 justify-content-end list-unstyled d-flex\">",
  "        <li class=\"ms-3\">",
  "            <a class=\"text-muted\" href=\"#\">",
  "                <i class=\"bi bi-github\"></i>",
  "            </a>",
  "        </li>",
  "    </ul>",
  "</footer>",
  "</html>"
]

/-- The characters of lines joined by line breaks. -/
def joinLines : List String → List Char
  | [] => []
  | [l] => l.data
  | l :: rest => l.data ++ '\n' :: joinLines rest

/-- `const articleTempl`: the fixed page skeleton, as bytes. -/
def articleTempl : Bytes := (joinLines articleTemplLines).flatMap String.utf8EncodeChar

/-- A parsed template: literal text, or an action with its source
between the two-brace delimiters. -/
inductive Node where
  | text (t : Bytes)
  | action (src : Bytes)
deriving DecidableEq, Repr

/-- Modelled from the spec: the template renderer's scanner (Go `html/template`,
an external package that is not in the repository).  Text is copied up to the
next opening delimiter (two bytes 123), an action runs to the next closing
delimiter (two bytes 125); an action left open is a parse error (`none`).
`inAction` says which of the two is being read, `acc` holds its bytes so far,
newest first. -/
def templateScan : Bool → Bytes → Bytes → Option (List Node)
  | false, acc, [] => some [Node.text acc.reverse]
  | true, _, [] => none
  | false, acc, [b] => some [Node.text (b :: acc).reverse]
  | true, _, [_] => none
  | false, acc, b :: b2 :: rest =>
    if b = 123 ∧ b2 = 123 then
      (templateScan true [] rest).map (fun ns => Node.text acc.reverse :: ns)
    else templateScan false (b :: acc) (b2 :: rest)
  | true, acc, b :: b2 :: rest =>
    if b = 125 ∧ b2 = 125 then
      (templateScan false [] rest).map (fun ns => Node.action acc.reverse :: ns)
    else templateScan true (b :: acc) (b2 :: rest)

/-- Modelled from the spec: `template.New("article").Parse(text)` of the template
renderer, which is not in the repository. -/
def templateParse (text : Bytes) : Result (List Node) :=
  match templateScan false [] text with
  | some ns => Result.ok ns
  | none => Result.error ⟨"template: article: unclosed action"⟩

/-- Modelled from the spec: the "standard HTML text-escaping" of the template
renderer, which is not in the repository; the replacement table is the one
Go `html/template` applies to plain text in element content. -/
def htmlEscapeByte (b : UInt8) : Bytes :=
  if b = 0 then [0xEF, 0xBF, 0xBD]
  else if b = 34 then utf8 "&#34;"
  else if b = 38 then utf8 "&amp;"
  else if b = 39 then utf8 "&#39;"
  else if b = 43 then utf8 "&#43;"
  else if b = 60 then utf8 "&lt;"
  else if b = 62 then utf8 "&gt;"
  else [b]

/-- Modelled from the spec: HTML text-escaping of a plain-text field. -/
def htmlEscape (s : Bytes) : Bytes := s.flatMap htmlEscapeByte

/-- The source of an action without the blanks around it. -/
def actionField (src : Bytes) : Bytes :=
  ((src.dropWhile (fun b => b = 32)).reverse.dropWhile (fun b => b = 32)).reverse

/-- Modelled from the spec: what the template renderer (not in the repository)
writes for one node.  Text is copied; `.Title` and `.Author` are Go strings and
are inserted HTML-escaped; `.Content` has the type `template.HTML` and is
inserted as it is; any other action is a rendering error. -/
def execNode (a : Article) : Node → Result Bytes
  | Node.text t => Result.ok t
  | Node.action src =>
    if actionField src = utf8 ".Title" then Result.ok (htmlEscape a.Title)
    else if actionField src = utf8 ".Author" then Result.ok (htmlEscape a.Author)
    else if actionField src = utf8 ".Content" then Result.ok a.Content
    else Result.error ⟨"template: article: can't evaluate field"⟩

/-- Modelled from the spec: `html.Execute(&buffHTML, a)` of the template renderer,
which is not in the repository: the nodes are written in order into the
buffer, and the first failing node aborts the rendering. -/
def templateExecute (a : Article) : List Node → Result Bytes
  | [] => Result.ok []
  | n :: ns =>
    match execNode a n with
    | Result.ok out =>
      match templateExecute a ns with
      | Result.ok more => Result.ok (out ++ more)
      | Result.error err => Result.error err
      | Result.panic m => Result.panic m
    | Result.error err => Result.error err
    | Result.panic m => Result.panic m

/-! ## `BuildHTML` -/

/-- `func BuildHTML(buff []byte) ([]byte, error)`.  `template.Must` panics when
`Parse` returned an error. -/
def BuildHTML (c : Collaborators) (buff : Bytes) : Run Bytes :=
  let r := ParseArticle c buff
  match r.result with
  | Result.error err => ⟨r.calls, Result.error err⟩
  | Result.panic m => ⟨r.calls, Result.panic m⟩
  | Result.ok a =>
    match templateParse articleTempl with
    | Result.error err => ⟨r.calls, Result.panic err.msg⟩
    | Result.panic m => ⟨r.calls, Result.panic m⟩
    | Result.ok html =>
      match templateExecute a html with
      | Result.error err => ⟨r.calls, Result.error err⟩
      | Result.panic m => ⟨r.calls, Result.panic m⟩
      | Result.ok out => ⟨r.calls, Result.ok out⟩

/-! ## `parseArgs` -/

/-- Go `filepath.Base` on a Unix path: "." for the empty path; otherwise
trailing slashes are dropped and the last element is returned, "/" when
nothing is left. -/
def filepathBase (path : String) : String :=
  if path = "" then "." else
  let stripped := (path.data.reverse.dropWhile (fun ch => ch = '/')).reverse
  let last := (stripped.reverse.takeWhile (fun ch => ch ≠ '/')).reverse
  if last = [] then "/" else String.mk last

/-- The message `parseArgs` panics with. -/
def usageMessage : String :=
  "Usage: template-gen <input> <output>\n\t\t\tinvalid number of arguments"

/-- `func parseArgs() *Params`, over an explicit `os.Args` (element 0 is the
program name): `switch len(os.Args)` with the cases 2 and 3, and a panic by
default. -/
def parseArgs (osArgs : List String) : Result Params :=
  match osArgs with
  | [_, a1] => Result.ok { Input := a1, Output := filepathBase a1 ++ ".html" }
  | [_, a1, a2] => Result.ok { Input := a1, Output := a2 }
  | _ => Result.panic usageMessage

/-! ## `main` over an explicit file system -/

/-- The two file-system calls of `main` over a state `σ`: `ioutil.ReadFile`
returns the content or an error; `ioutil.WriteFile(name, data, 0644)`
returns the state it leaves and its error (`none` for nil). -/
structure FileSystem (σ : Type) where
  readFile : σ → String → Except GoError Bytes
  writeFile : σ → String → Bytes → σ × Option GoError

/-- One file-system call made by `main`. -/
inductive FileOp where
  | read (path : String)
  | write (path : String) (data : Bytes)
deriving DecidableEq, Repr

/-- A finished run of `main`: the file-system state at exit, the file-system
calls made, in order, and the panic message (`none` for a normal return). -/
structure MainRun (σ : Type) where
  fs : σ
  ops : List FileOp
  panicked : Option String

/-- `func main()`, over `os.Args` and a file-system state. -/
def main {σ : Type} (os : FileSystem σ) (c : Collaborators) (osArgs : List String)
    (fs : σ) : MainRun σ :=
  match parseArgs osArgs with
  | Result.panic m => ⟨fs, [], some m⟩
  | Result.error err => ⟨fs, [], some err.msg⟩
  | Result.ok params =>
    match os.readFile fs params.Input with
    | Except.error err => ⟨fs, [FileOp.read params.Input], some err.msg⟩
    | Except.ok input =>
      match (BuildHTML c input).result with
      | Result.error err => ⟨fs, [FileOp.read params.Input], some err.msg⟩
      | Result.panic m => ⟨fs, [FileOp.read params.Input], some m⟩
      | Result.ok output =>
        let w := os.writeFile fs params.Output output
        ⟨w.1, [FileOp.read params.Input, FileOp.write params.Output output],
          w.2.map (fun err => err.msg)⟩

/-- The number of `write` calls among file-system calls. -/
def writeCount (ops : List FileOp) : Nat :=
  (ops.filter (fun op => match op with
    | FileOp.write _ _ => true
    | FileOp.read _ => false)).length

/-! ## Specification vocabulary: occurrences of the separator -/

/-- The separator occurs in `s` at index `i`: the three bytes of `s` from
index `i` on are `---`. -/
def occursAt (s : Bytes) (i : Nat) : Prop := separator.isPrefixOf (s.drop i) = true

instance (s : Bytes) (i : Nat) : Decidable (occursAt s i) := by
  unfold occursAt; infer_instance

/-- All indices at which the separator occurs in `s`, in increasing order
(overlapping occurrences included). -/
def occurrences (s : Bytes) : List Nat :=
  (List.range s.length).filter (fun i => separator.isPrefixOf (s.drop i))

/-- Scan for `delimiters`: `skip` bytes of the delimiter found last are still
to be passed over, `i` is the index of the head of the remaining input. -/
def delimitersFrom : Bytes → Nat → Nat → List Nat
  | [], _, _ => []
  | _ :: s, skip + 1, i => delimitersFrom s skip (i + 1)
  | b :: s, 0, i =>
    if separator.isPrefixOf (b :: s) then i :: delimitersFrom s 2 (i + 1)
    else delimitersFrom s 0 (i + 1)

/-- The delimiters of `s`, read from left to right as the splitter of the
spec reads them: the first occurrence of `---`, then the next occurrence
after it, and so on; an occurrence that overlaps the delimiter before it is
not a delimiter (the counting of Go `bytes.Count`). -/
def delimiters (s : Bytes) : List Nat := delimitersFrom s 0 0

/-- `i` is the smallest index at which the separator occurs in `s`. -/
def firstOccurrence (s : Bytes) (i : Nat) : Prop :=
  occursAt s i ∧ ∀ j, j < i → ¬ occursAt s j

/-- The outcome of `ParseArticle` once the metadata block and the body are
fixed: what the code does from line 172 on. -/
def parseSplit (c : Collaborators) (block body : Bytes) : Run Article :=
  match (c.yamlUnmarshal block zeroArticle).2 with
  | some err => ⟨[Call.yamlUnmarshal block], Result.error err⟩
  | none =>
    ⟨[Call.yamlUnmarshal block, Call.markdownToHTML body,
        Call.logPrintln (c.markdownToHTML body)],
      Result.ok { (c.yamlUnmarshal block zeroArticle).1 with
        Content := c.markdownToHTML body }⟩

instance (s : Bytes) (i : Nat) : Decidable (firstOccurrence s i) := by
  unfold firstOccurrence; infer_instance

/-- A stand-in for the two external packages, used to evaluate the model on
concrete inputs: the decoder rejects a block that holds a NUL byte and
otherwise copies the block into every field of the record (`Content`
included); the renderer wraps the body in a paragraph element. -/
def sampleCollaborators : Collaborators where
  yamlUnmarshal := fun buf data =>
    if 0 ∈ buf then (data, some ⟨"yaml: control characters are not allowed"⟩)
    else ({ Title := buf, Content := buf, Author := buf }, none)
  markdownToHTML := fun body => [60, 112, 62] ++ body ++ [60, 47, 112, 62, 10]

/-- A stand-in file system, used to evaluate `main` on concrete inputs: a
list of named files; reading a missing file fails, writing replaces or adds
the file and always succeeds. -/
def sampleFileSystem : FileSystem (List (String × Bytes)) where
  readFile := fun fs path =>
    match fs.lookup path with
    | some data => Except.ok data
    | none => Except.error ⟨"open " ++ path ++ ": no such file or directory"⟩
  writeFile := fun fs path data => ((path, data) :: fs.filter (fun f => f.1 ≠ path), none)

/-- The skeleton before the `Title` substitution point: its first 2768 bytes. -/
def skeletonHead : Bytes := articleTempl.take 2768

/-- The skeleton between the `Title` and `Author` substitution points. -/
def skeletonMid1 : Bytes := (articleTempl.drop 2780).take 93

/-- The skeleton between the `Author` and `Content` substitution points. -/
def skeletonMid2 : Bytes := (articleTempl.drop 2886).take 45

/-- The skeleton after the `Content` substitution point. -/
def skeletonTail : Bytes := articleTempl.drop 2945

/-! ## Lemmas on `bytes.Index` and slicing -/

theorem isPrefixOf_nil_false {sep : Bytes} (h : sep ≠ []) :
    sep.isPrefixOf ([] : Bytes) = false := by
  cases sep with
  | nil => exact absurd rfl h
  | cons a t => rfl

theorem indexFrom_cases {sep : Bytes} (hsep : sep ≠ []) (s : Bytes) (i0 : Int) :
    (indexFrom sep s i0 = -1 ∧ ∀ j, sep.isPrefixOf (s.drop j) = false) ∨
    (∃ n : Nat, indexFrom sep s i0 = i0 + n ∧ sep.isPrefixOf (s.drop n) = true ∧
      ∀ j, j < n → sep.isPrefixOf (s.drop j) = false) := by
  induction s generalizing i0 with
  | nil =>
    left
    refine ⟨by simp [indexFrom, hsep], ?_⟩
    intro j
    simpa using isPrefixOf_nil_false hsep
  | cons b s ih =>
    by_cases hp : sep.isPrefixOf (b :: s) = true
    · right
      exact ⟨0, by simp [indexFrom, hp], by simpa using hp, by intro j hj; omega⟩
    · have hp' : sep.isPrefixOf (b :: s) = false := Bool.eq_false_iff.2 hp
      rcases ih (i0 + 1) with ⟨h1, h2⟩ | ⟨n, h1, h2, h3⟩
      · left
        refine ⟨by simp [indexFrom, hp', h1], ?_⟩
        intro j
        cases j with
        | zero => simpa using hp'
        | succ j => simpa using h2 j
      · right
        refine ⟨n + 1, ?_, by simpa using h2, ?_⟩
        · simp [indexFrom, hp', h1]; omega
        · intro j hj
          cases j with
          | zero => simpa using hp'
          | succ j => simpa using h3 j (by omega)

theorem separator_ne_nil : separator ≠ [] := by decide

/-- `bytes.Index` either returns `-1`, and then the separator occurs nowhere,
or returns the smallest index at which it occurs. -/
theorem bytesIndex_cases (s : Bytes) :
    (bytesIndex s separator = -1 ∧ ∀ j, ¬ occursAt s j) ∨
    (∃ n : Nat, bytesIndex s separator = (n : Int) ∧ firstOccurrence s n) := by
  rcases indexFrom_cases separator_ne_nil s 0 with ⟨h1, h2⟩ | ⟨n, h1, h2, h3⟩
  · left
    exact ⟨h1, fun j hj => by simp [occursAt, h2 j] at hj⟩
  · right
    refine ⟨n, by simpa [bytesIndex] using h1, h2, ?_⟩
    intro j hj hocc
    simp [occursAt, h3 j hj] at hocc

theorem bytesIndex_of_first {s : Bytes} {i : Nat} (h : firstOccurrence s i) :
    bytesIndex s separator = (i : Int) := by
  rcases bytesIndex_cases s with ⟨_, h2⟩ | ⟨n, h1, h2⟩
  · exact absurd h.1 (h2 i)
  · have : n = i := by
      rcases Nat.lt_trichotomy n i with hlt | heq | hgt
      · exact absurd h2.1 (h.2 n hlt)
      · exact heq
      · exact absurd h.1 (h2.2 i hgt)
    rw [h1, this]

theorem bytesIndex_of_none {s : Bytes} (h : ∀ j, ¬ occursAt s j) :
    bytesIndex s separator = -1 := by
  rcases bytesIndex_cases s with ⟨h1, _⟩ | ⟨n, _, h2⟩
  · exact h1
  · exact absurd h2.1 (h n)

/-- An occurrence lies inside the input: its three bytes end at or before `len(s)`. -/
theorem occursAt_bound {s : Bytes} {i : Nat} (h : occursAt s i) : i + 3 ≤ s.length := by
  have hp := (List.isPrefixOf_iff_prefix).1 h
  have hl := hp.length_le
  simp [separator] at hl
  omega

theorem sliceFrom_eq (s : Bytes) (n : Nat) (h : n ≤ s.length) :
    sliceFrom s (n : Int) = some (s.drop n) := by
  have h1 : (0 : Int) ≤ n ∧ (n : Int) ≤ s.length ∧ (s.length : Int) ≤ s.length := by omega
  have h2 : ((s.length : Int) - (n : Int)).toNat = s.length - n := by omega
  simp only [sliceFrom, slice, h1, and_self, if_true, Int.toNat_ofNat, h2]
  rw [List.take_of_length_le (by simp)]

theorem slice_eq (s : Bytes) (lo len : Nat) (h : lo + len ≤ s.length) :
    slice s (lo : Int) ((lo : Int) + (len : Int)) = some ((s.drop lo).take len) := by
  have h1 : (0 : Int) ≤ lo ∧ (lo : Int) ≤ (lo : Int) + (len : Int) ∧
      (lo : Int) + (len : Int) ≤ s.length := by omega
  have h2 : ((lo : Int) + (len : Int) - (lo : Int)).toNat = len := by omega
  simp only [slice, h1, and_self, if_true, Int.toNat_ofNat, h2]

theorem occursAt_drop {s : Bytes} {n k : Nat} :
    occursAt (s.drop n) k ↔ occursAt s (n + k) := by
  simp [occursAt, List.drop_drop, Nat.add_comm]

/-! ## `ParseArticle`, case by case -/

theorem ParseArticle_no_first (c : Collaborators) {buf : Bytes}
    (h : bytesIndex buf separator = -1) :
    ParseArticle c buf = ⟨[], Result.error errSeparator⟩ := by
  simp [ParseArticle, h]

theorem ParseArticle_no_second (c : Collaborators) {buf : Bytes} {i : Nat}
    (hi : firstOccurrence buf i)
    (hk : bytesIndex (buf.drop (i + 3)) separator = -1) :
    ParseArticle c buf = ⟨[], Result.error errSeparator⟩ := by
  have h1 := bytesIndex_of_first hi
  have hb := occursAt_bound hi.1
  have hne : ¬ ((i : Int) = -1) := by omega
  have hs : sliceFrom buf ((i : Int) + 3) = some (buf.drop (i + 3)) := by
    have := sliceFrom_eq buf (i + 3) hb
    simpa using this
  simp [ParseArticle, h1, hne, hs, hk]

theorem ParseArticle_found (c : Collaborators) {buf : Bytes} {i k : Nat}
    (hi : firstOccurrence buf i) (hk : firstOccurrence (buf.drop (i + 3)) k) :
    ParseArticle c buf =
      parseSplit c ((buf.drop (i + 3)).take k) (buf.drop (i + 6 + k)) := by
  have h1 := bytesIndex_of_first hi
  have h2 := bytesIndex_of_first hk
  have hb := occursAt_bound hi.1
  have hb2 := occursAt_bound hk.1
  simp only [List.length_drop] at hb2
  have hne : ¬ ((i : Int) = -1) := by omega
  have hne2 : ¬ ((k : Int) = -1) := by omega
  have hs : sliceFrom buf ((i : Int) + 3) = some (buf.drop (i + 3)) := by
    have := sliceFrom_eq buf (i + 3) hb
    simpa using this
  have hs2 : slice buf ((i : Int) + 3) ((i : Int) + 3 + (k : Int)) =
      some ((buf.drop (i + 3)).take k) := by
    have := slice_eq buf (i + 3) k (by omega)
    simpa using this
  have hs3 : sliceFrom buf ((i : Int) + 6 + (k : Int)) = some (buf.drop (i + 6 + k)) := by
    have := sliceFrom_eq buf (i + 6 + k) (by omega)
    simpa using this
  simp only [ParseArticle, h1, hne, if_false, hs, h2, hne2, hs2, hs3, ParseArticleData,
    parseSplit]
  cases (c.yamlUnmarshal (List.take k (List.drop (i + 3) buf)) zeroArticle).2 <;> rfl

/-! ## Occurrences -/

theorem mem_occurrences {s : Bytes} {i : Nat} : i ∈ occurrences s ↔ occursAt s i := by
  constructor
  · intro h
    exact (List.mem_filter.1 h).2
  · intro h
    have hb := occursAt_bound h
    exact List.mem_filter.2 ⟨List.mem_range.2 (by omega), h⟩

theorem occursAt_iff_getElem {s : Bytes} {j : Nat} :
    occursAt s j ↔ s[j]? = some 45 ∧ s[j + 1]? = some 45 ∧ s[j + 2]? = some 45 := by
  have key : ∀ l : Bytes, separator.isPrefixOf l = true ↔
      l[0]? = some 45 ∧ l[1]? = some 45 ∧ l[2]? = some 45 := by
    intro l
    match l with
    | [] => simp [separator]
    | [a] => simp [separator, List.isPrefixOf]
    | [a, b] => simp [separator, List.isPrefixOf]
    | a :: b :: d :: l =>
      simp only [separator, List.isPrefixOf, Bool.and_true, Bool.and_eq_true, beq_iff_eq,
        List.getElem?_cons_zero, List.getElem?_cons_succ, Option.some.injEq]
      constructor
      · rintro ⟨h0, h1, h2⟩; exact ⟨h0.symm, h1.symm, h2.symm⟩
      · rintro ⟨h0, h1, h2⟩; exact ⟨h0.symm, h1.symm, h2.symm⟩
  unfold occursAt
  rw [key]
  simp [List.getElem?_drop]

/-- The first occurrence of the separator in `p ++ "---" ++ x` is at `len(p)`
when `p` holds no separator and does not end in a dash. -/
theorem firstOccurrence_after_preamble {p x : Bytes} (hp : occurrences p = [])
    (hl : p.getLast? ≠ some 45) : firstOccurrence (p ++ separator ++ x) p.length := by
  constructor
  · simp [occursAt, List.append_assoc, separator, List.isPrefixOf]
  · intro j hj hocc
    rw [occursAt_iff_getElem] at hocc
    obtain ⟨h0, h1, h2⟩ := hocc
    by_cases hin : j + 3 ≤ p.length
    · have : occursAt p j := by
        rw [occursAt_iff_getElem]
        rw [List.append_assoc] at h0 h1 h2
        rw [List.getElem?_append_left (by omega)] at h0 h1 h2
        exact ⟨h0, h1, h2⟩
      have hm := mem_occurrences.2 this
      rw [hp] at hm
      exact absurd hm (List.not_mem_nil _)
    · apply hl
      rw [List.getLast?_eq_getElem?]
      rw [List.append_assoc] at h0 h1 h2
      have hcase : p.length - 1 = j ∨ p.length - 1 = j + 1 ∨ p.length - 1 = j + 2 := by omega
      rcases hcase with h | h | h
      · rw [h]; rw [List.getElem?_append_left (by omega)] at h0; exact h0
      · rw [h]; rw [List.getElem?_append_left (by omega)] at h1; exact h1
      · rw [h]; rw [List.getElem?_append_left (by omega)] at h2; exact h2

theorem firstOccurrence_at_start (x : Bytes) : firstOccurrence (separator ++ x) 0 := by
  constructor
  · simp [occursAt, separator, List.isPrefixOf]
  · intro j hj; omega

/-! ## Delimiters read from left to right -/

theorem delimitersFrom_skip (s : Bytes) (skip i : Nat) :
    delimitersFrom s skip i = delimitersFrom (s.drop skip) 0 (i + skip) := by
  induction s generalizing skip i with
  | nil => simp [delimitersFrom]
  | cons b s ih =>
    cases skip with
    | zero => simp
    | succ n =>
      rw [delimitersFrom, ih n (i + 1)]
      simp only [List.drop_succ_cons]
      rw [show i + 1 + n = i + (n + 1) by omega]

theorem delimitersFrom_of_none (s : Bytes) (i : Nat) (h : ∀ j, ¬ occursAt s j) :
    delimitersFrom s 0 i = [] := by
  induction s generalizing i with
  | nil => rfl
  | cons b s ih =>
    have h0 : ¬ separator.isPrefixOf (b :: s) = true := by
      have := h 0
      simpa [occursAt] using this
    rw [delimitersFrom, if_neg h0]
    apply ih
    intro j hj
    exact h (j + 1) (by simpa [occursAt] using hj)

theorem delimitersFrom_of_first (s : Bytes) (n i : Nat) (h : firstOccurrence s n) :
    delimitersFrom s 0 i = (i + n) :: delimitersFrom (s.drop (n + 3)) 0 (i + n + 3) := by
  induction n generalizing s i with
  | zero =>
    match s, h with
    | [], h => exact absurd h.1 (by simp [occursAt, separator, List.isPrefixOf])
    | b :: s, h =>
      have h0 : separator.isPrefixOf (b :: s) = true := by simpa [occursAt] using h.1
      rw [delimitersFrom, if_pos h0, delimitersFrom_skip s 2 (i + 1)]
      simp only [Nat.add_zero, Nat.zero_add, List.drop_succ_cons]
  | succ n ih =>
    match s, h with
    | [], h => exact absurd h.1 (by simp [occursAt, separator, List.isPrefixOf])
    | b :: s, h =>
      have h0 : ¬ separator.isPrefixOf (b :: s) = true := by
        have := h.2 0 (by omega)
        simpa [occursAt] using this
      have hs : firstOccurrence s n := by
        refine ⟨by simpa [occursAt] using h.1, fun j hj hoc => ?_⟩
        exact h.2 (j + 1) (by omega) (by simpa [occursAt] using hoc)
      rw [delimitersFrom, if_neg h0, ih s (i + 1) hs]
      simp only [List.drop_succ_cons]
      rw [show i + 1 + n = i + (n + 1) by omega]

/-- Two delimiters at `p` and `q`, and no third: `p` is the first occurrence
of the separator, and `q` the first one from index `p + 3` on. -/
theorem delimiters_pair {buf : Bytes} {p q : Nat} (h : delimiters buf = [p, q]) :
    p + 3 ≤ q ∧ firstOccurrence buf p ∧
      firstOccurrence (buf.drop (p + 3)) (q - (p + 3)) := by
  unfold delimiters at h
  rcases bytesIndex_cases buf with ⟨_, h2⟩ | ⟨i, _, hi⟩
  · rw [delimitersFrom_of_none buf 0 h2] at h
    cases h
  · rw [delimitersFrom_of_first buf i 0 hi] at h
    simp only [Nat.zero_add, List.cons.injEq] at h
    obtain ⟨hip, hrest⟩ := h
    subst hip
    rcases bytesIndex_cases (buf.drop (i + 3)) with ⟨_, h2⟩ | ⟨k, _, hk⟩
    · rw [delimitersFrom_of_none _ _ h2] at hrest
      cases hrest
    · rw [delimitersFrom_of_first _ k _ hk] at hrest
      simp only [List.cons.injEq] at hrest
      have hq : i + 3 + k = q := hrest.1
      subst hq
      refine ⟨by omega, hi, ?_⟩
      rw [show i + 3 + k - (i + 3) = k by omega]
      exact hk

/-! ## The document splitter -/

theorem parseSplit_calls (c : Collaborators) (block body : Bytes) :
    (parseSplit c block body).calls =
      if (c.yamlUnmarshal block zeroArticle).2 = none then
        [Call.yamlUnmarshal block, Call.markdownToHTML body,
          Call.logPrintln (c.markdownToHTML body)]
      else [Call.yamlUnmarshal block] := by
  unfold parseSplit
  cases h : (c.yamlUnmarshal block zeroArticle).2 <;> simp

theorem parseSplit_ok (c : Collaborators) (block body : Bytes)
    (h : (c.yamlUnmarshal block zeroArticle).2 = none) :
    parseSplit c block body =
      ⟨[Call.yamlUnmarshal block, Call.markdownToHTML body,
          Call.logPrintln (c.markdownToHTML body)],
        Result.ok { (c.yamlUnmarshal block zeroArticle).1 with
          Content := c.markdownToHTML body }⟩ := by
  unfold parseSplit
  rw [h]

theorem parseSplit_error (c : Collaborators) (block body : Bytes) (err : GoError)
    (h : (c.yamlUnmarshal block zeroArticle).2 = some err) :
    parseSplit c block body = ⟨[Call.yamlUnmarshal block], Result.error err⟩ := by
  unfold parseSplit
  rw [h]

/-- Every run of `ParseArticle` is one of three: no first separator, no
second separator, or both found and the split handed on. -/
theorem ParseArticle_cases (c : Collaborators) (buf : Bytes) :
    ((∀ j, ¬ occursAt buf j) ∧ ParseArticle c buf = ⟨[], Result.error errSeparator⟩) ∨
    (∃ i, firstOccurrence buf i ∧ (∀ j, ¬ occursAt (buf.drop (i + 3)) j) ∧
      ParseArticle c buf = ⟨[], Result.error errSeparator⟩) ∨
    (∃ i k, firstOccurrence buf i ∧ firstOccurrence (buf.drop (i + 3)) k ∧
      ParseArticle c buf =
        parseSplit c ((buf.drop (i + 3)).take k) (buf.drop (i + 6 + k))) := by
  rcases bytesIndex_cases buf with ⟨h1, h2⟩ | ⟨i, _, hi⟩
  · exact Or.inl ⟨h2, ParseArticle_no_first c h1⟩
  · rcases bytesIndex_cases (buf.drop (i + 3)) with ⟨h1, h2⟩ | ⟨k, _, hk⟩
    · exact Or.inr (Or.inl ⟨i, hi, h2, ParseArticle_no_second c hi h1⟩)
    · exact Or.inr (Or.inr ⟨i, k, hi, hk, ParseArticle_found c hi hk⟩)

theorem firstOccurrence_unique {s : Bytes} {i j : Nat} (hi : firstOccurrence s i)
    (hj : firstOccurrence s j) : i = j := by
  rcases Nat.lt_trichotomy i j with h | h | h
  · exact absurd hi.1 (hj.2 i h)
  · exact h
  · exact absurd hj.1 (hi.2 j h)

theorem BuildHTML_of_error (c : Collaborators) {buf : Bytes} {calls : List Call}
    {err : GoError} (h : ParseArticle c buf = ⟨calls, Result.error err⟩) :
    BuildHTML c buf = ⟨calls, Result.error err⟩ := by
  simp [BuildHTML, h]

/-- C1: when both separators are found, with `i` the smallest index at which
`---` occurs in `buf` and `k` the smallest index at which it occurs in
`buf[i+3:]`, the metadata decoder is handed exactly `buf[i+3 : i+3+k]`, and the
markdown renderer, which runs when the decoder succeeds, is handed exactly
`buf[i+6+k:]`; no other bytes reach either of them. -/
theorem C1_split_ranges (c : Collaborators) (buf : Bytes) (i k : Nat)
    (hi : firstOccurrence buf i) (hk : firstOccurrence (buf.drop (i + 3)) k) :
    (ParseArticle c buf).calls =
      if (c.yamlUnmarshal ((buf.drop (i + 3)).take k) zeroArticle).2 = none then
        [Call.yamlUnmarshal ((buf.drop (i + 3)).take k),
          Call.markdownToHTML (buf.drop (i + 6 + k)),
          Call.logPrintln (c.markdownToHTML (buf.drop (i + 6 + k)))]
      else [Call.yamlUnmarshal ((buf.drop (i + 3)).take k)] := by
  rw [ParseArticle_found c hi hk, parseSplit_calls]

/-- C1 at the input `a---t---b---c`: the block is `t` and the body is
`b---c`, later separators included. -/
theorem C1_split_ranges_witness :
    (ParseArticle sampleCollaborators
        [97, 45, 45, 45, 116, 45, 45, 45, 98, 45, 45, 45, 99]).calls =
      [Call.yamlUnmarshal [116], Call.markdownToHTML [98, 45, 45, 45, 99],
        Call.logPrintln [60, 112, 62, 98, 45, 45, 45, 99, 60, 47, 112, 62, 10]] :=
  C1_split_ranges sampleCollaborators
    [97, 45, 45, 45, 116, 45, 45, 45, 98, 45, 45, 45, 99] 1 1 (by decide) (by decide)

/-- C2: an input with at most one occurrence of `---` makes `ParseArticle`
return the error "yaml separator not found" and no article, with no call to
the metadata decoder or the markdown renderer; `BuildHTML` returns the same
error and no bytes. -/
theorem C2_missing_separator (c : Collaborators) (buf : Bytes)
    (h : (occurrences buf).length ≤ 1) :
    (ParseArticle c buf).result = Result.error errSeparator ∧
    (ParseArticle c buf).calls = [] ∧
    (BuildHTML c buf).result = Result.error errSeparator ∧
    (BuildHTML c buf).calls = [] ∧
    errSeparator.msg = "yaml separator not found" := by
  have hp : ParseArticle c buf = ⟨[], Result.error errSeparator⟩ := by
    rcases ParseArticle_cases c buf with ⟨_, h1⟩ | ⟨i, _, _, h1⟩ | ⟨i, k, hi, hk, _⟩
    · exact h1
    · exact h1
    · exfalso
      have m1 : i ∈ occurrences buf := mem_occurrences.2 hi.1
      have m2 : i + 3 + k ∈ occurrences buf := mem_occurrences.2 (occursAt_drop.1 hk.1)
      match hl : occurrences buf, h, m1, m2 with
      | [], _, m1, _ => exact absurd m1 (List.not_mem_nil _)
      | [x], _, m1, m2 =>
        have e1 := List.mem_singleton.1 m1
        have e2 := List.mem_singleton.1 m2
        omega
      | _ :: _ :: _, h, _, _ => simp at h
  have hb := BuildHTML_of_error c hp
  rw [hp, hb]
  exact ⟨rfl, rfl, rfl, rfl, rfl⟩

/-- C2 at the input `a---b`, which holds one separator. -/
theorem C2_missing_separator_witness :
    (occurrences [97, 45, 45, 45, 98]).length ≤ 1 ∧
    (ParseArticle sampleCollaborators [97, 45, 45, 45, 98]).result =
      Result.error errSeparator :=
  ⟨by decide, (C2_missing_separator sampleCollaborators [97, 45, 45, 45, 98] (by decide)).1⟩

/-- C3: when the input holds exactly two delimiters, at `p` and at `q` (the
first occurrence of `---` and the next one after it, with no third), and the
decoder accepts the bytes `buf[p+3 : q]` strictly between them, `ParseArticle`
succeeds, the decoder is handed exactly `buf[p+3 : q]` and the renderer exactly
`buf[q+3:]`, the bytes after the second delimiter; `p = 0` and
`q + 3 = len(buf)` are allowed, and a delimiter may stand in the middle of a
line. -/
theorem C3_exactly_two_separators (c : Collaborators) (buf : Bytes) (p q : Nat)
    (hdelim : delimiters buf = [p, q])
    (hvalid : (c.yamlUnmarshal ((buf.drop (p + 3)).take (q - (p + 3))) zeroArticle).2 = none) :
    p + 3 ≤ q ∧ q + 3 ≤ buf.length ∧
    (ParseArticle c buf).result =
      Result.ok { (c.yamlUnmarshal ((buf.drop (p + 3)).take (q - (p + 3))) zeroArticle).1 with
        Content := c.markdownToHTML (buf.drop (q + 3)) } ∧
    (ParseArticle c buf).calls =
      [Call.yamlUnmarshal ((buf.drop (p + 3)).take (q - (p + 3))),
        Call.markdownToHTML (buf.drop (q + 3)),
        Call.logPrintln (c.markdownToHTML (buf.drop (q + 3)))] := by
  obtain ⟨hsep, hi, hk⟩ := delimiters_pair hdelim
  have hq : q + 3 ≤ buf.length := by
    have := occursAt_bound hk.1
    simp only [List.length_drop] at this
    omega
  have hbody : p + 6 + (q - (p + 3)) = q + 3 := by omega
  rw [ParseArticle_found c hi hk, hbody, parseSplit_ok c _ _ hvalid]
  exact ⟨hsep, hq, rfl, rfl⟩

/-- C3 at two inputs.  In `---t---` both delimiters touch an end of the input:
the block is `t` and the body is empty.  In `a----b---c` the delimiters are at
1 and 6 (the match at index 2 overlaps the first): the block is `-b` and the
body is `c`. -/
theorem C3_exactly_two_separators_witness :
    (delimiters [45, 45, 45, 116, 45, 45, 45] = [0, 4] ∧
      (ParseArticle sampleCollaborators [45, 45, 45, 116, 45, 45, 45]).calls =
        [Call.yamlUnmarshal [116], Call.markdownToHTML [],
          Call.logPrintln [60, 112, 62, 60, 47, 112, 62, 10]]) ∧
    (delimiters [97, 45, 45, 45, 45, 98, 45, 45, 45, 99] = [1, 6] ∧
      (ParseArticle sampleCollaborators [97, 45, 45, 45, 45, 98, 45, 45, 45, 99]).calls =
        [Call.yamlUnmarshal [45, 98], Call.markdownToHTML [99],
          Call.logPrintln [60, 112, 62, 99, 60, 47, 112, 62, 10]]) :=
  ⟨⟨by decide,
      (C3_exactly_two_separators sampleCollaborators [45, 45, 45, 116, 45, 45, 45] 0 4
        (by decide) (by decide)).2.2.2⟩,
    ⟨by decide,
      (C3_exactly_two_separators sampleCollaborators
        [97, 45, 45, 45, 45, 98, 45, 45, 45, 99] 1 6 (by decide) (by decide)).2.2.2⟩⟩

/-- The shape of a successful `ParseArticle`. -/
theorem ParseArticle_ok_shape (c : Collaborators) (buf : Bytes) (a : Article)
    (h : (ParseArticle c buf).result = Result.ok a) :
    ∃ i k, firstOccurrence buf i ∧ firstOccurrence (buf.drop (i + 3)) k ∧
      a.Content = c.markdownToHTML (buf.drop (i + 6 + k)) ∧
      a.Title = (c.yamlUnmarshal ((buf.drop (i + 3)).take k) zeroArticle).1.Title ∧
      a.Author = (c.yamlUnmarshal ((buf.drop (i + 3)).take k) zeroArticle).1.Author := by
  rcases ParseArticle_cases c buf with ⟨_, h1⟩ | ⟨i, _, _, h1⟩ | ⟨i, k, hi, hk, h1⟩
  · rw [h1] at h; cases h
  · rw [h1] at h; cases h
  · refine ⟨i, k, hi, hk, ?_⟩
    rw [h1] at h
    cases hd : (c.yamlUnmarshal ((buf.drop (i + 3)).take k) zeroArticle).2 with
    | some err => rw [parseSplit_error c _ _ err hd] at h; cases h
    | none =>
      rw [parseSplit_ok c _ _ hd] at h
      cases h
      exact ⟨rfl, rfl, rfl⟩

/-- C4: whenever `ParseArticle` returns an article, both separators were
found, at the first index `i` and at the first index `k` of the rest, and the
article's `Content` is the renderer's output on `buf[i+6+k:]`; `Title` and
`Author` are the decoder's, and the `Content` the decoder left is dropped. -/
theorem C4_content_is_rendered_body (c : Collaborators) (buf : Bytes) (a : Article)
    (h : (ParseArticle c buf).result = Result.ok a) :
    ∃ i k, firstOccurrence buf i ∧ firstOccurrence (buf.drop (i + 3)) k ∧
      a.Content = c.markdownToHTML (buf.drop (i + 6 + k)) ∧
      a.Title = (c.yamlUnmarshal ((buf.drop (i + 3)).take k) zeroArticle).1.Title ∧
      a.Author = (c.yamlUnmarshal ((buf.drop (i + 3)).take k) zeroArticle).1.Author :=
  ParseArticle_ok_shape c buf a h

/-- C4 at the input `---t---b` with a decoder that fills `Content` from the
block: the returned `Content` is the rendered body `<p>b</p>`, not `t`. -/
theorem C4_content_is_rendered_body_witness :
    (sampleCollaborators.yamlUnmarshal [116] zeroArticle).1.Content = [116] ∧
    ∃ i k, firstOccurrence [45, 45, 45, 116, 45, 45, 45, 98] i ∧
      firstOccurrence (List.drop (i + 3) [45, 45, 45, 116, 45, 45, 45, 98]) k ∧
      ([60, 112, 62, 98, 60, 47, 112, 62, 10] : Bytes) =
        sampleCollaborators.markdownToHTML
          (List.drop (i + 6 + k) [45, 45, 45, 116, 45, 45, 45, 98]) ∧
      ([116] : Bytes) = (sampleCollaborators.yamlUnmarshal
          ((List.drop (i + 3) [45, 45, 45, 116, 45, 45, 45, 98]).take k) zeroArticle).1.Title ∧
      ([116] : Bytes) = (sampleCollaborators.yamlUnmarshal
          ((List.drop (i + 3) [45, 45, 45, 116, 45, 45, 45, 98]).take k) zeroArticle).1.Author :=
  ⟨by decide,
    C4_content_is_rendered_body sampleCollaborators [45, 45, 45, 116, 45, 45, 45, 98]
      ⟨[116], [60, 112, 62, 98, 60, 47, 112, 62, 10], [116]⟩ (by decide)⟩

/-- C6: when both separators are found and the decoder reports `err` on the
block between them, `ParseArticle` returns no article and the error `err`, its
only external call is the decoder's (the renderer is not called), and
`BuildHTML` returns `err` and no bytes. -/
theorem C6_decoder_error (c : Collaborators) (buf : Bytes) (i k : Nat) (err : GoError)
    (hi : firstOccurrence buf i) (hk : firstOccurrence (buf.drop (i + 3)) k)
    (herr : (c.yamlUnmarshal ((buf.drop (i + 3)).take k) zeroArticle).2 = some err) :
    (ParseArticle c buf).result = Result.error err ∧
    (ParseArticle c buf).calls = [Call.yamlUnmarshal ((buf.drop (i + 3)).take k)] ∧
    (∀ body, Call.markdownToHTML body ∉ (ParseArticle c buf).calls) ∧
    (BuildHTML c buf).result = Result.error err ∧
    (∀ body, Call.markdownToHTML body ∉ (BuildHTML c buf).calls) := by
  have hp := ParseArticle_found c hi hk
  rw [parseSplit_error c _ _ err herr] at hp
  have hb := BuildHTML_of_error c hp
  rw [hp, hb]
  refine ⟨rfl, rfl, ?_, rfl, ?_⟩ <;> intro body hm <;> simp at hm

/-- C6 at the input `---` NUL `---b`, whose block the stand-in decoder rejects. -/
theorem C6_decoder_error_witness :
    (ParseArticle sampleCollaborators [45, 45, 45, 0, 45, 45, 45, 98]).result =
      Result.error ⟨"yaml: control characters are not allowed"⟩ ∧
    (BuildHTML sampleCollaborators [45, 45, 45, 0, 45, 45, 45, 98]).result =
      Result.error ⟨"yaml: control characters are not allowed"⟩ :=
  have h := C6_decoder_error sampleCollaborators [45, 45, 45, 0, 45, 45, 45, 98] 0 1
    ⟨"yaml: control characters are not allowed"⟩ (by decide) (by decide) (by decide)
  ⟨h.1, h.2.2.2.1⟩

/-- With the first separator at `len(p)`, the preamble `p` plays no part in
what `ParseArticle` does. -/
theorem ParseArticle_preamble (c : Collaborators) (p x : Bytes)
    (h : firstOccurrence (p ++ separator ++ x) p.length) :
    ParseArticle c (p ++ separator ++ x) = ParseArticle c (separator ++ x) := by
  have h0 := firstOccurrence_at_start x
  have d1 : (p ++ separator ++ x).drop (p.length + 3) = x := by
    rw [List.append_assoc, List.drop_append_eq_append_drop]
    simp [separator]
  have d0 : (separator ++ x).drop (0 + 3) = x := by simp [separator]
  rcases bytesIndex_cases x with ⟨h1, _⟩ | ⟨k, _, hk⟩
  · rw [ParseArticle_no_second c h (by rw [d1]; exact h1),
      ParseArticle_no_second c h0 (by rw [d0]; exact h1)]
  · have b1 : (p ++ separator ++ x).drop (p.length + 6 + k) = x.drop (3 + k) := by
      rw [show p.length + 6 + k = (p.length + 3) + (3 + k) by omega, ← List.drop_drop, d1]
    have b0 : (separator ++ x).drop (0 + 6 + k) = x.drop (3 + k) := by
      rw [show 0 + 6 + k = (0 + 3) + (3 + k) by omega, ← List.drop_drop, d0]
    rw [ParseArticle_found c h (by rw [d1]; exact hk),
      ParseArticle_found c h0 (by rw [d0]; exact hk), d1, d0, b1, b0]

/-- C8 as stated fails for the preamble `-`, which holds no separator: in
`-` `---` `---` the first separator is found at index 0, not 1, so the body
handed to the renderer is `-`, while without the preamble it is empty; with a
renderer that tells the two apart the results differ. -/
theorem C8_counterexample :
    occurrences [45] = [] ∧
    (∀ c : Collaborators,
      ParseArticle c ([45] ++ separator ++ [] ++ separator ++ []) = parseSplit c [] [45] ∧
      ParseArticle c (separator ++ [] ++ separator ++ []) = parseSplit c [] []) ∧
    ¬ ∀ c : Collaborators,
      (ParseArticle c ([45] ++ separator ++ [] ++ separator ++ [])).result =
        (ParseArticle c (separator ++ [] ++ separator ++ [])).result := by
  refine ⟨by decide, fun c => ⟨?_, ?_⟩, fun h => ?_⟩
  · exact ParseArticle_found c
      (show firstOccurrence ([45] ++ separator ++ [] ++ separator ++ []) 0 by decide)
      (show firstOccurrence (([45] ++ separator ++ [] ++ separator ++ []).drop (0 + 3)) 0
        by decide)
  · exact ParseArticle_found c
      (show firstOccurrence (separator ++ [] ++ separator ++ []) 0 by decide)
      (show firstOccurrence ((separator ++ [] ++ separator ++ []).drop (0 + 3)) 0 by decide)
  · exact absurd (h sampleCollaborators) (by decide)

/-- C8, amended: for every preamble `p` that holds no `---` and does not end
in a dash, every block `m` and every body `b`, `ParseArticle` on
`p ++ "---" ++ m ++ "---" ++ b` returns the same result as on
`"---" ++ m ++ "---" ++ b`, and makes the same external calls. -/
theorem C8_preamble_ignored (c : Collaborators) (p m b : Bytes)
    (hp : occurrences p = []) (hl : p.getLast? ≠ some 45) :
    (ParseArticle c (p ++ separator ++ m ++ separator ++ b)).result =
      (ParseArticle c (separator ++ m ++ separator ++ b)).result ∧
    (ParseArticle c (p ++ separator ++ m ++ separator ++ b)).calls =
      (ParseArticle c (separator ++ m ++ separator ++ b)).calls := by
  have e1 : p ++ separator ++ m ++ separator ++ b = p ++ separator ++ (m ++ separator ++ b) := by
    simp [List.append_assoc]
  have e2 : separator ++ m ++ separator ++ b = separator ++ (m ++ separator ++ b) := by
    simp [List.append_assoc]
  rw [e1, e2, ParseArticle_preamble c p _ (firstOccurrence_after_preamble hp hl)]
  exact ⟨rfl, rfl⟩

/-- C8, amended, at the preamble `x`, the block `t` and the body `b`. -/
theorem C8_preamble_ignored_witness :
    occurrences [120] = [] ∧
    (ParseArticle sampleCollaborators ([120] ++ separator ++ [116] ++ separator ++ [98])).result =
      (ParseArticle sampleCollaborators (separator ++ [116] ++ separator ++ [98])).result :=
  ⟨by decide,
    (C8_preamble_ignored sampleCollaborators [120] [116] [98] (by decide) (by decide)).1⟩

/-- C10: on every input the slice expressions of `ParseArticle` are in range:
when the first search returns `yamlStart`, not `-1`, then
`0 <= yamlStart` and `yamlStart + 3 <= len(buf)`; when the second search, in
`buf[yamlStart+3:]`, returns `yamlEnd`, not `-1`, then `0 <= yamlEnd` and
`yamlStart + 6 + yamlEnd <= len(buf)`.  So `ParseArticle` does not panic: it
returns an article or an error. -/
theorem C10_slices_in_bounds (c : Collaborators) (buf : Bytes) :
    (∀ m, (ParseArticle c buf).result ≠ Result.panic m) ∧
    ((∃ a, (ParseArticle c buf).result = Result.ok a) ∨
      (∃ err, (ParseArticle c buf).result = Result.error err)) ∧
    (bytesIndex buf separator ≠ -1 →
      0 ≤ bytesIndex buf separator ∧
      bytesIndex buf separator + 3 ≤ (buf.length : Int) ∧
      sliceFrom buf (bytesIndex buf separator + 3) =
        some (buf.drop (bytesIndex buf separator + 3).toNat) ∧
      (bytesIndex (buf.drop (bytesIndex buf separator + 3).toNat) separator ≠ -1 →
        0 ≤ bytesIndex (buf.drop (bytesIndex buf separator + 3).toNat) separator ∧
        bytesIndex buf separator + 6 +
          bytesIndex (buf.drop (bytesIndex buf separator + 3).toNat) separator ≤
            (buf.length : Int))) := by
  have hres : (∃ a, (ParseArticle c buf).result = Result.ok a) ∨
      (∃ err, (ParseArticle c buf).result = Result.error err) := by
    rcases ParseArticle_cases c buf with ⟨_, h1⟩ | ⟨i, _, _, h1⟩ | ⟨i, k, hi, hk, h1⟩
    · exact Or.inr ⟨errSeparator, by rw [h1]⟩
    · exact Or.inr ⟨errSeparator, by rw [h1]⟩
    · cases hd : (c.yamlUnmarshal ((buf.drop (i + 3)).take k) zeroArticle).2 with
      | some err => exact Or.inr ⟨err, by rw [h1, parseSplit_error c _ _ err hd]⟩
      | none => exact Or.inl ⟨_, by rw [h1, parseSplit_ok c _ _ hd]⟩
  refine ⟨?_, hres, ?_⟩
  · intro m hm
    rcases hres with ⟨a, ha⟩ | ⟨err, he⟩
    · rw [ha] at hm; cases hm
    · rw [he] at hm; cases hm
  · intro hne
    rcases bytesIndex_cases buf with ⟨h1, _⟩ | ⟨i, h1, hi⟩
    · exact absurd h1 hne
    · have hb := occursAt_bound hi.1
      rw [h1]
      have hnat : ((i : Int) + 3).toNat = i + 3 := by omega
      rw [hnat]
      refine ⟨by omega, by omega, ?_, ?_⟩
      · have := sliceFrom_eq buf (i + 3) hb
        simpa using this
      · intro hne2
        rcases bytesIndex_cases (buf.drop (i + 3)) with ⟨h2, _⟩ | ⟨k, h2, hk⟩
        · exact absurd h2 hne2
        · have hb2 := occursAt_bound hk.1
          simp only [List.length_drop] at hb2
          rw [h2]
          omega

/-! ## The template renderer and `BuildHTML` -/

/-- The scanner splits the skeleton into four texts and three actions. -/
theorem articleTempl_parse :
    templateParse articleTempl =
      Result.ok [Node.text skeletonHead, Node.action (utf8 " .Title "),
        Node.text skeletonMid1, Node.action (utf8 " .Author "),
        Node.text skeletonMid2, Node.action (utf8 " .Content "),
        Node.text skeletonTail] := by
  decide!

/-- The skeleton is its four texts with the three actions between them. -/
theorem articleTempl_split :
    articleTempl =
      skeletonHead ++ utf8 "\x7b\x7b .Title \x7d\x7d" ++ skeletonMid1 ++
        utf8 "\x7b\x7b .Author \x7d\x7d" ++ skeletonMid2 ++
        utf8 "\x7b\x7b .Content \x7d\x7d" ++ skeletonTail := by
  decide!

theorem execNode_title (a : Article) :
    execNode a (Node.action (utf8 " .Title ")) = Result.ok (htmlEscape a.Title) := by
  unfold execNode
  dsimp only
  rw [if_pos (by decide)]

theorem execNode_author (a : Article) :
    execNode a (Node.action (utf8 " .Author ")) = Result.ok (htmlEscape a.Author) := by
  unfold execNode
  dsimp only
  rw [if_neg (by decide), if_pos (by decide)]

theorem execNode_content (a : Article) :
    execNode a (Node.action (utf8 " .Content ")) = Result.ok a.Content := by
  unfold execNode
  dsimp only
  rw [if_neg (by decide), if_neg (by decide), if_pos (by decide)]

theorem execNode_text (a : Article) (t : Bytes) : execNode a (Node.text t) = Result.ok t :=
  rfl

/-- Rendering the parsed skeleton never fails, and substitutes the three fields. -/
theorem templateExecute_skeleton (a : Article) :
    templateExecute a [Node.text skeletonHead, Node.action (utf8 " .Title "),
        Node.text skeletonMid1, Node.action (utf8 " .Author "),
        Node.text skeletonMid2, Node.action (utf8 " .Content "),
        Node.text skeletonTail] =
      Result.ok (skeletonHead ++ htmlEscape a.Title ++ skeletonMid1 ++ htmlEscape a.Author ++
        skeletonMid2 ++ a.Content ++ skeletonTail) := by
  simp only [templateExecute, execNode_title, execNode_author, execNode_content,
    execNode_text, List.append_nil, List.append_assoc]

theorem BuildHTML_ok (c : Collaborators) (buff : Bytes) (a : Article)
    (h : (ParseArticle c buff).result = Result.ok a) :
    (BuildHTML c buff).result =
      Result.ok (skeletonHead ++ htmlEscape a.Title ++ skeletonMid1 ++ htmlEscape a.Author ++
        skeletonMid2 ++ a.Content ++ skeletonTail) := by
  simp only [BuildHTML, h, articleTempl_parse, templateExecute_skeleton]

theorem BuildHTML_ok_inv (c : Collaborators) (buff : Bytes) (out : Bytes)
    (h : (BuildHTML c buff).result = Result.ok out) :
    ∃ a, (ParseArticle c buff).result = Result.ok a := by
  cases hp : (ParseArticle c buff).result with
  | ok a => exact ⟨a, rfl⟩
  | error err => simp [BuildHTML, hp] at h
  | panic m => simp [BuildHTML, hp] at h

/-- C5: whenever `BuildHTML` returns bytes, `ParseArticle` returned an article
`a` and the bytes are the skeleton with `Title` and `Author` replaced by their
HTML-escaped values and `Content` replaced by `a.Content`, the renderer's
output, unescaped; the four stretches of skeleton text around the three
substitution points are copied unchanged. -/
theorem C5_template_substitution (c : Collaborators) (buff out : Bytes)
    (h : (BuildHTML c buff).result = Result.ok out) :
    ∃ a, (ParseArticle c buff).result = Result.ok a ∧
      (∃ body, a.Content = c.markdownToHTML body) ∧
      out = skeletonHead ++ htmlEscape a.Title ++ skeletonMid1 ++ htmlEscape a.Author ++
        skeletonMid2 ++ a.Content ++ skeletonTail ∧
      articleTempl =
        skeletonHead ++ utf8 "\x7b\x7b .Title \x7d\x7d" ++ skeletonMid1 ++
          utf8 "\x7b\x7b .Author \x7d\x7d" ++ skeletonMid2 ++
          utf8 "\x7b\x7b .Content \x7d\x7d" ++ skeletonTail := by
  obtain ⟨a, ha⟩ := BuildHTML_ok_inv c buff out h
  obtain ⟨i, k, _, _, hc, _⟩ := ParseArticle_ok_shape c buff a ha
  have hb := BuildHTML_ok c buff a ha
  rw [h] at hb
  exact ⟨a, ha, ⟨_, hc⟩, Result.ok.inj hb, articleTempl_split⟩

/-- C5 at the input `---<t>---b`: the title `<t>` is written as `&lt;t&gt;`,
the rendered body `<p>b</p>` as it is. -/
theorem C5_template_substitution_witness :
    htmlEscape [60, 116, 62] = utf8 "&lt;t&gt;" ∧
    ∃ a, (ParseArticle sampleCollaborators [45, 45, 45, 60, 116, 62, 45, 45, 45, 98]).result =
        Result.ok a ∧
      (∃ body, a.Content = sampleCollaborators.markdownToHTML body) ∧
      skeletonHead ++ htmlEscape [60, 116, 62] ++ skeletonMid1 ++ htmlEscape [60, 116, 62] ++
          skeletonMid2 ++ [60, 112, 62, 98, 60, 47, 112, 62, 10] ++ skeletonTail =
        skeletonHead ++ htmlEscape a.Title ++ skeletonMid1 ++ htmlEscape a.Author ++
          skeletonMid2 ++ a.Content ++ skeletonTail ∧
      articleTempl =
        skeletonHead ++ utf8 "\x7b\x7b .Title \x7d\x7d" ++ skeletonMid1 ++
          utf8 "\x7b\x7b .Author \x7d\x7d" ++ skeletonMid2 ++
          utf8 "\x7b\x7b .Content \x7d\x7d" ++ skeletonTail :=
  ⟨by decide,
    C5_template_substitution sampleCollaborators [45, 45, 45, 60, 116, 62, 45, 45, 45, 98] _
      (BuildHTML_ok sampleCollaborators [45, 45, 45, 60, 116, 62, 45, 45, 45, 98]
        ⟨[60, 116, 62], [60, 112, 62, 98, 60, 47, 112, 62, 10], [60, 116, 62]⟩ (by decide))⟩

/-! ## `parseArgs` and `main` -/

/-- The base name of a path without a slash is the path. -/
theorem filepathBase_name (name : String) (hne : name.data ≠ [])
    (hslash : '/' ∉ name.data) : filepathBase name = name := by
  have hpath : ¬ name = "" := by
    intro h
    rw [h] at hne
    exact hne rfl
  have hall : ∀ ch ∈ name.data.reverse, decide (ch ≠ '/') = true := by
    intro ch hch
    have hmem : ch ∈ name.data := List.mem_reverse.1 hch
    have : ch ≠ '/' := fun h => hslash (h ▸ hmem)
    simpa using this
  have hdrop : name.data.reverse.dropWhile (fun ch => decide (ch = '/')) =
      name.data.reverse := by
    cases hr : name.data.reverse with
    | nil => rfl
    | cons x xs =>
      have hx := hall x (by rw [hr]; exact List.mem_cons_self _ _)
      have hx2 : x ≠ '/' := by simpa using hx
      simp [List.dropWhile_cons, hx2]
  have htake : name.data.reverse.takeWhile (fun ch => decide (ch ≠ '/')) =
      name.data.reverse := List.takeWhile_eq_self_iff.2 hall
  unfold filepathBase
  rw [if_neg hpath]
  simp only [hdrop, List.reverse_reverse, htake, if_neg hne]

/-- The base name of `dir/name` is `name`: what stands before the last slash
is dropped. -/
theorem filepathBase_dir (dir name : String) (hne : name.data ≠ [])
    (hslash : '/' ∉ name.data) : filepathBase (dir ++ "/" ++ name) = name := by
  have hdata : (dir ++ "/" ++ name).data = dir.data ++ '/' :: name.data := by
    simp [String.data_append]
  have hpath : ¬ dir ++ "/" ++ name = "" := by
    intro h
    have := congrArg String.data h
    rw [hdata] at this
    simp at this
  have hall : ∀ ch ∈ name.data.reverse, decide (ch ≠ '/') = true := by
    intro ch hch
    have hmem : ch ∈ name.data := List.mem_reverse.1 hch
    have : ch ≠ '/' := fun h => hslash (h ▸ hmem)
    simpa using this
  have hrev : (dir.data ++ '/' :: name.data).reverse =
      name.data.reverse ++ '/' :: dir.data.reverse := by simp
  have hdrop : (name.data.reverse ++ '/' :: dir.data.reverse).dropWhile
      (fun ch => decide (ch = '/')) = name.data.reverse ++ '/' :: dir.data.reverse := by
    cases hr : name.data.reverse with
    | nil => exact absurd (List.reverse_eq_nil_iff.1 hr) hne
    | cons x xs =>
      have hx := hall x (by rw [hr]; exact List.mem_cons_self _ _)
      have hx2 : x ≠ '/' := by simpa using hx
      simp [List.dropWhile_cons, hx2]
  have htake : (name.data.reverse ++ '/' :: dir.data.reverse).takeWhile
      (fun ch => decide (ch ≠ '/')) = name.data.reverse := by
    rw [List.takeWhile_append_of_pos hall]
    simp
  unfold filepathBase
  rw [if_neg hpath]
  simp only [hdata, hrev, hdrop, List.reverse_reverse, htake, List.reverse_append,
    List.reverse_cons, List.append_assoc, List.singleton_append, List.nil_append, if_neg hne]

/-- C7: with one user argument `p`, `parseArgs` returns `Input = p` and
`Output = filepath.Base(p) + ".html"`: for `p` a name without a slash the
output is `p.html` (`doc.md` gives `doc.md.html`), and for `p = dir/name` the
directory part is dropped and the output is `name.html` (`sub/doc.md` and
`/abs/doc.md` give `doc.md.html`, `sub/doc.md/` too).  With two user arguments
`p` and `q` it returns `Input = p` and `Output = q` unchanged.  With any other
length of `os.Args` it panics with the usage message and returns no
parameters. -/
theorem C7_parseArgs :
    (∀ prog p : String, parseArgs [prog, p] =
      Result.ok { Input := p, Output := filepathBase p ++ ".html" }) ∧
    (∀ prog name : String, name.data ≠ [] → '/' ∉ name.data →
      parseArgs [prog, name] = Result.ok { Input := name, Output := name ++ ".html" }) ∧
    (∀ prog dir name : String, name.data ≠ [] → '/' ∉ name.data →
      parseArgs [prog, dir ++ "/" ++ name] =
        Result.ok { Input := dir ++ "/" ++ name, Output := name ++ ".html" }) ∧
    (∀ prog : String, parseArgs [prog, "doc.md"] =
      Result.ok { Input := "doc.md", Output := "doc.md.html" }) ∧
    (∀ prog : String, parseArgs [prog, "sub/doc.md"] =
      Result.ok { Input := "sub/doc.md", Output := "doc.md.html" }) ∧
    (∀ prog : String, parseArgs [prog, "/abs/doc.md"] =
      Result.ok { Input := "/abs/doc.md", Output := "doc.md.html" }) ∧
    (∀ prog : String, parseArgs [prog, "sub/doc.md/"] =
      Result.ok { Input := "sub/doc.md/", Output := "doc.md.html" }) ∧
    (∀ prog p q : String, parseArgs [prog, p, q] = Result.ok { Input := p, Output := q }) ∧
    (∀ prog : String, parseArgs [prog, "sub/doc.md", "out/page"] =
      Result.ok { Input := "sub/doc.md", Output := "out/page" }) ∧
    (∀ osArgs : List String, osArgs.length ≠ 2 → osArgs.length ≠ 3 →
      parseArgs osArgs = Result.panic usageMessage) := by
  have hshape : ∀ prog p : String, parseArgs [prog, p] =
      Result.ok (Params.mk p (filepathBase p ++ ".html")) := fun _ _ => rfl
  refine ⟨hshape, ?_, ?_, ?_, ?_, ?_, ?_, fun _ _ _ => rfl, fun _ => rfl, ?_⟩
  · intro prog name hne hslash
    rw [hshape, filepathBase_name name hne hslash]
  · intro prog dir name hne hslash
    rw [hshape, filepathBase_dir dir name hne hslash]
  · intro prog
    have hbase : filepathBase "doc.md" = "doc.md" := by decide
    rw [hshape, hbase]
    rfl
  · intro prog
    have hbase : filepathBase "sub/doc.md" = "doc.md" := by decide
    rw [hshape, hbase]
    rfl
  · intro prog
    have hbase : filepathBase "/abs/doc.md" = "doc.md" := by decide
    rw [hshape, hbase]
    rfl
  · intro prog
    have hbase : filepathBase "sub/doc.md/" = "doc.md" := by decide
    rw [hshape, hbase]
    rfl
  · intro osArgs h2 h3
    match osArgs, h2, h3 with
    | [], _, _ => rfl
    | [_], _, _ => rfl
    | [_, _], h2, _ => exact absurd rfl h2
    | [_, _, _], _, h3 => exact absurd rfl h3
    | _ :: _ :: _ :: _ :: _, _, _ => rfl

/-- C9: `main` writes at most once; a write happens only after `parseArgs`,
the read of `Input` and `BuildHTML` succeeded, goes to `Output` and carries
exactly the bytes `BuildHTML` returned; on a usage error no file-system call is
made; on a read error or a failure of `BuildHTML` nothing is written and the
file-system state is the one `main` started from. -/
theorem C9_single_write {σ : Type} (os : FileSystem σ) (c : Collaborators)
    (osArgs : List String) (fs : σ) :
    writeCount (main os c osArgs fs).ops ≤ 1 ∧
    (∀ path data, FileOp.write path data ∈ (main os c osArgs fs).ops →
      ∃ params input, parseArgs osArgs = Result.ok params ∧
        os.readFile fs params.Input = Except.ok input ∧
        (BuildHTML c input).result = Result.ok data ∧ path = params.Output ∧
        (main os c osArgs fs).ops = [FileOp.read params.Input, FileOp.write path data] ∧
        (main os c osArgs fs).fs = (os.writeFile fs path data).1) ∧
    (∀ m, parseArgs osArgs = Result.panic m →
      (main os c osArgs fs).ops = [] ∧ (main os c osArgs fs).fs = fs ∧
      (main os c osArgs fs).panicked = some m) ∧
    (∀ params err, parseArgs osArgs = Result.ok params →
      os.readFile fs params.Input = Except.error err →
      (main os c osArgs fs).ops = [FileOp.read params.Input] ∧
      (main os c osArgs fs).fs = fs ∧ (main os c osArgs fs).panicked = some err.msg) ∧
    (∀ params input, parseArgs osArgs = Result.ok params →
      os.readFile fs params.Input = Except.ok input →
      (∀ out, (BuildHTML c input).result ≠ Result.ok out) →
      (main os c osArgs fs).ops = [FileOp.read params.Input] ∧
      (main os c osArgs fs).fs = fs ∧ (main os c osArgs fs).panicked ≠ none) := by
  cases hp : parseArgs osArgs with
  | panic m => simp [main, hp, writeCount]
  | error err => simp [main, hp, writeCount]
  | ok params =>
    cases hr : os.readFile fs params.Input with
    | error err =>
      refine ⟨by simp [main, hp, hr, writeCount], by simp [main, hp, hr], by simp, ?_, ?_⟩
      · intro p2 e2 hp2 hr2
        cases hp2
        rw [hr] at hr2
        cases hr2
        simp [main, hp, hr]
      · intro p2 input hp2 hr2
        cases hp2
        rw [hr] at hr2
        cases hr2
    | ok input =>
      cases hb : (BuildHTML c input).result with
      | error err =>
        refine ⟨by simp [main, hp, hr, hb, writeCount], by simp [main, hp, hr, hb], by simp,
          ?_, ?_⟩
        · intro p2 e2 hp2 hr2
          cases hp2
          rw [hr] at hr2
          cases hr2
        · intro p2 i2 hp2 hr2 _
          cases hp2
          rw [hr] at hr2
          cases hr2
          simp [main, hp, hr, hb]
      | panic m =>
        refine ⟨by simp [main, hp, hr, hb, writeCount], by simp [main, hp, hr, hb], by simp,
          ?_, ?_⟩
        · intro p2 e2 hp2 hr2
          cases hp2
          rw [hr] at hr2
          cases hr2
        · intro p2 i2 hp2 hr2 _
          cases hp2
          rw [hr] at hr2
          cases hr2
          simp [main, hp, hr, hb]
      | ok output =>
        refine ⟨by simp [main, hp, hr, hb, writeCount], ?_, by simp, ?_, ?_⟩
        · intro path data hm
          have hops : (main os c osArgs fs).ops =
              [FileOp.read params.Input, FileOp.write params.Output output] := by
            simp [main, hp, hr, hb]
          rw [hops] at hm
          simp at hm
          obtain ⟨h1, h2⟩ := hm
          subst h1 h2
          exact ⟨params, input, rfl, hr, hb, rfl, hops, by simp [main, hp, hr, hb]⟩
        · intro p2 e2 hp2 hr2
          cases hp2
          rw [hr] at hr2
          cases hr2
        · intro p2 i2 hp2 hr2 hne
          cases hp2
          rw [hr] at hr2
          cases hr2
          exact absurd hb (hne output)

end TemplateGen
